import Mathlib

/-!
# Shallow embedding of the skribbl backend lobby/round engine

This file embeds the game core of `src/skribbl_backend.js` — word hints,
drawer rotation, the lobby state machine (rounds, scoring, guess handling),
and the lobby registry — and proves the specification claims about it.

Randomness (`Math.random()`) is made explicit: every operation that draws a
random value takes it as an argument (a natural number used as an index into
the range the JS draw covers).  Timers (`setInterval` / `setTimeout`) are
modelled by a boolean `timer` flag plus an explicit list of scheduled
actions returned by each operation.  A thrown JS exception is modelled as
`Except.error` (the mutations a JS handler performed before throwing are not
tracked; the operation is treated as failing as a whole).
-/

namespace Skribbl

/-- `GAME_CONFIG` of the source. -/
def ROUND_TIME : Int := 80

def ROUNDS_PER_GAME : Nat := 6

def POINTS_CORRECT_GUESS : Nat := 100

def POINTS_DRAWING_BONUS : Nat := 50

def LOBBY_CODE_LENGTH : Nat := 6

/-- `WORD_LISTS.easy`. -/
def easyWords : List String :=
  ["cat", "dog", "sun", "car", "tree", "house", "book", "fish", "bird", "moon",
   "star", "ball", "cake", "ice", "fire", "rain", "snow", "boat", "shoe", "hat"]

/-- `WORD_LISTS.medium`. -/
def mediumWords : List String :=
  ["elephant", "butterfly", "rainbow", "bicycle", "computer", "telephone", "airplane",
   "sandwich", "umbrella", "dinosaur", "princess", "guitar", "volcano", "treasure",
   "lighthouse", "snowman", "octopus", "hamburger", "spaceship", "keyboard"]

/-- `WORD_LISTS.hard`. -/
def hardWords : List String :=
  ["refrigerator", "kaleidoscope", "motorcycle", "microphone", "photographer",
   "skeleton", "watermelon", "spaghetti", "toothbrush", "helicopter", "telescope",
   "trampoline", "parachute", "orchestra", "thermometer", "escalator", "submarine"]

/-- `const allWords = [...WORD_LISTS.easy, ...WORD_LISTS.medium, ...WORD_LISTS.hard]`. -/
def allWords : List String := easyWords ++ mediumWords ++ hardWords

/-- `getRandomWord()`: `allWords[Math.floor(Math.random() * allWords.length)]`.
The random draw is given as the index `r` (reduced into range, as the JS
expression always is). -/
def getRandomWord (r : Nat) : String :=
  allWords.get ⟨r % allWords.length, Nat.mod_lt _ (by decide)⟩

/-- The per-character mask of `createWordHint`:
`char => (char === space) ? space : underscore`. -/
def maskChar (c : Char) : Char := if c = ' ' then ' ' else '_'

/-- `createWordHint(word)`:
split the word to characters, mask each, join with a space.
Splitting to characters, masking each, and joining with a space is exactly
interspersing a space between the masked characters. -/
def createWordHint (word : String) : String :=
  ⟨(word.data.map maskChar).intersperse ' '⟩

/-- The `Player` class: per-connection identity, score and guess status. -/
structure Player where
  id : String
  name : String
  lobbyCode : String
  score : Nat
  hasGuessed : Bool
  joinedAt : Nat
deriving Repr, DecidableEq

/-- `lobby.gameState`.  `playersGuessed` (a JS `Set`) is a duplicate-free
list; `timer` records whether the round interval is live. -/
structure GameState where
  isPlaying : Bool
  round : Nat
  currentDrawer : Option String
  lastDrawer : Option String
  currentWord : Option String
  wordHint : Option String
  timeLeft : Int
  playersGuessed : List String
  timer : Bool
deriving Repr, DecidableEq

/-- The initial `gameState` object built by the `Lobby` constructor. -/
def initialGameState : GameState :=
  { isPlaying := false
    round := 0
    currentDrawer := none
    lastDrawer := none
    currentWord := none
    wordHint := none
    timeLeft := ROUND_TIME
    playersGuessed := []
    timer := false }

/-- The `Lobby` class fields. -/
structure Lobby where
  id : String
  name : String
  code : String
  creatorId : String
  maxPlayers : Nat
  isPrivate : Bool
  players : List Player
  gameState : GameState
  createdAt : Nat
deriving Repr, DecidableEq

/-- The projection `getGameStateForClient()` returns (sent to clients as the
game-state snapshot). -/
structure ClientGameState where
  isPlaying : Bool
  round : Nat
  currentDrawer : Option String
  currentWord : Option String
  wordHint : Option String
  timeLeft : Int
deriving Repr, DecidableEq

/-- `Lobby.getGameStateForClient()`. -/
def Lobby.getGameStateForClient (l : Lobby) : ClientGameState :=
  { isPlaying := l.gameState.isPlaying
    round := l.gameState.round
    currentDrawer := l.gameState.currentDrawer
    currentWord := l.gameState.currentWord
    wordHint := l.gameState.wordHint
    timeLeft := l.gameState.timeLeft }

/-- The socket events the core emits (payloads restricted to the fields the
source sends). -/
inductive Event where
  | timeUpdate (timeLeft : Int)
  | timeUp (word : Option String)
  | gameEnded (winner : Player)
  | newRound (gs : ClientGameState)
  | gameStarted (gs : ClientGameState)
  | correctGuess (playerId playerName : String) (points : Nat) (players : List Player)
  | chatMessage (playerId playerName message : String) (isCorrect : Bool)
  | playerJoined (player : Player) (players : List Player)
  | lobbyJoined (lobbyId lobbyName lobbyCode creatorId : String)
      (players : List Player) (maxPlayers : Nat) (player : Player)
      (gameState : ClientGameState)
deriving Repr, DecidableEq

/-- The `setTimeout` continuations the handlers install. -/
inductive ScheduledAction where
  | nextRound
  | autoStart
deriving Repr, DecidableEq

/-- Result of one handler run: the new lobby, the events emitted, and the
`setTimeout` continuations scheduled (delay in milliseconds). -/
abbrev OpResult := Except String (Lobby × List Event × List (Nat × ScheduledAction))

/-- `getNextDrawer(lobby)`: filter out `lastDrawer`, fall back to
`players[0]` when nothing remains, otherwise pick at random index `r`
(reduced into range). `players[0]` on an empty roster is JS `undefined`,
modelled by `head?` returning `none`. -/
def getNextDrawer (lobby : Lobby) (r : Nat) : Option Player :=
  let availablePlayers := lobby.players.filter (fun p => some p.id != lobby.gameState.lastDrawer)
  if availablePlayers.length = 0 then
    lobby.players.head?
  else
    availablePlayers.get? (r % availablePlayers.length)

/-- `Lobby.addPlayer(player)` (throws the lobby-full error). -/
def Lobby.addPlayer (l : Lobby) (player : Player) : Except String Lobby :=
  if l.players.length ≥ l.maxPlayers then
    .error "Lobby is full"
  else
    .ok { l with players := l.players ++ [player] }

/-- `Lobby.allPlayersGuessed()`. -/
def Lobby.allPlayersGuessed (l : Lobby) : Bool :=
  (l.players.filter (fun p => some p.id != l.gameState.currentDrawer)).all
    (fun p => p.hasGuessed)

/-- The reducer of the winner computation in `endGame`:
`(prev, current) => (prev.score > current.score) ? prev : current`. -/
def pickWinner (prev current : Player) : Player :=
  if prev.score > current.score then prev else current

/-- `players.reduce(pickWinner)` — JS `reduce` with no initial value:
seeded with the first element, and a `TypeError` (here `none`) on an empty
array. -/
def winnerOf : List Player → Option Player
  | [] => none
  | p :: rest => some (rest.foldl pickWinner p)

/-- `Lobby.endGame()`: stop playing, compute the winner by `reduce`
(throwing on an empty roster), emit `gameEnded`, then reset the round state
and all scores. -/
def Lobby.endGame (l : Lobby) : OpResult :=
  match winnerOf l.players with
  | none => .error "TypeError: Reduce of empty array with no initial value"
  | some winner =>
    let gs := { l.gameState with
        isPlaying := false
        round := 0
        currentDrawer := none
        lastDrawer := none
        currentWord := none
        wordHint := none
        playersGuessed := [] }
    let players := l.players.map (fun p => { p with score := 0, hasGuessed := false })
    .ok ({ l with gameState := gs, players := players }, [Event.gameEnded winner], [])

/-- `Lobby.endRound()`: clear the interval, emit `timeUp` when not everyone
guessed, then either end the game (`round >= ROUNDS_PER_GAME`) or schedule
the next round after 6000 ms. -/
def Lobby.endRound (l : Lobby) : OpResult :=
  let l1 : Lobby := { l with gameState := { l.gameState with timer := false } }
  let evs := if l1.allPlayersGuessed then [] else [Event.timeUp l1.gameState.currentWord]
  if l1.gameState.round ≥ ROUNDS_PER_GAME then
    match l1.endGame with
    | .error e => .error e
    | .ok (l2, evs2, sch) => .ok (l2, evs ++ evs2, sch)
  else
    .ok (l1, evs, [(6000, ScheduledAction.nextRound)])

/-- `Lobby.startNewRound()`: clear `playersGuessed`, draw word and hint,
reset `timeLeft`, pick the next drawer (`.id` on `undefined` throws when the
roster is empty), record it as `lastDrawer`, reset every `hasGuessed`, and
start the timer.  `wordR` and `drawerR` are the two random draws. -/
def Lobby.startNewRound (l : Lobby) (wordR drawerR : Nat) : OpResult :=
  let word := getRandomWord wordR
  let gs1 := { l.gameState with
      playersGuessed := []
      currentWord := some word
      wordHint := some (createWordHint word)
      timeLeft := ROUND_TIME }
  let l1 : Lobby := { l with gameState := gs1 }
  match getNextDrawer l1 drawerR with
  | none => .error "TypeError: Cannot read properties of undefined (reading id)"
  | some drawer =>
    let gs2 := { gs1 with currentDrawer := some drawer.id, lastDrawer := some drawer.id }
    let players := l1.players.map (fun p => { p with hasGuessed := false })
    let gs3 := { gs2 with timer := true }
    .ok ({ l1 with players := players, gameState := gs3 }, [], [])

/-- `Lobby.startGame()`: throws below 2 players, otherwise
`isPlaying := true`, `round := 1`, and `startNewRound()`. -/
def Lobby.startGame (l : Lobby) (wordR drawerR : Nat) : OpResult :=
  if l.players.length < 2 then
    .error "Need at least 2 players to start"
  else
    let l1 : Lobby := { l with gameState := { l.gameState with isPlaying := true, round := 1 } }
    l1.startNewRound wordR drawerR

/-- `Lobby.removePlayer(playerId)`: filter the roster, reassign the creator
to `players[0]` when the creator left and members remain, and end the round
when the removed player was the current drawer of a running game. -/
def Lobby.removePlayer (l : Lobby) (playerId : String) : OpResult :=
  let players1 := l.players.filter (fun p => p.id != playerId)
  let creatorId1 :=
    if l.creatorId = playerId then
      match players1 with
      | p :: _ => p.id
      | [] => l.creatorId
    else l.creatorId
  let l1 : Lobby := { l with players := players1, creatorId := creatorId1 }
  if (some playerId == l1.gameState.currentDrawer) && l1.gameState.isPlaying then
    l1.endRound
  else
    .ok (l1, [], [])

/-- JS `String.prototype.toLowerCase()`, modelled character-wise (the
words and guesses involved are plain ASCII). -/
def jsToLowerCase (s : String) : String :=
  ⟨s.data.map Char.toLower⟩

/-- JS `String.prototype.trim()`: strip leading and trailing whitespace. -/
def jsTrim (s : String) : String :=
  ⟨((s.data.dropWhile Char.isWhitespace).reverse.dropWhile Char.isWhitespace).reverse⟩

/-- `lobby.players.find(p => p.id === currentDrawer)` followed by
`drawer.score += bonus`: JS mutates the first matching object only; absent a
match nothing changes. -/
def bumpFirst (players : List Player) (target : Option String) (bonus : Nat) : List Player :=
  match players with
  | [] => []
  | p :: rest =>
    if some p.id == target then
      { p with score := p.score + bonus } :: rest
    else
      p :: bumpFirst rest target bonus

/-- The guess socket handler, for a player already resolved to this
lobby (the global `players` map entry and the lobby roster entry are the
same object for a member).  Ineligible callers (not playing, the drawer, or
already guessed) are silent no-ops; a match scores 100, marks the guesser,
emits `correctGuess`, and on the last eligible guesser pays the drawer bonus
and ends the round; a mismatch is broadcast as chat.
`currentWord.toLowerCase()` on `null` throws. -/
def Lobby.handleGuess (l : Lobby) (socketId message : String) : OpResult :=
  match l.players.find? (fun p => p.id == socketId) with
  | none => .ok (l, [], [])
  | some player =>
    if !l.gameState.isPlaying then .ok (l, [], [])
    else if (some socketId == l.gameState.currentDrawer) || player.hasGuessed then
      .ok (l, [], [])
    else
      match l.gameState.currentWord with
      | none => .error "TypeError: Cannot read properties of null (reading toLowerCase)"
      | some currentWord =>
        let guess := jsTrim (jsToLowerCase message)
        let correctWord := jsToLowerCase currentWord
        if guess == correctWord then
          let players1 := l.players.map (fun p =>
            if p.id == socketId then
              { p with hasGuessed := true, score := p.score + POINTS_CORRECT_GUESS }
            else p)
          let guessed1 :=
            if l.gameState.playersGuessed.contains socketId then
              l.gameState.playersGuessed
            else
              socketId :: l.gameState.playersGuessed
          let l1 : Lobby := { l with
            players := players1
            gameState := { l.gameState with playersGuessed := guessed1 } }
          let ev1 := Event.correctGuess socketId player.name POINTS_CORRECT_GUESS l1.players
          if l1.allPlayersGuessed then
            let l2 : Lobby := { l1 with
              players := bumpFirst l1.players l1.gameState.currentDrawer POINTS_DRAWING_BONUS }
            match l2.endRound with
            | .error e => .error e
            | .ok (l3, evs, sch) => .ok (l3, ev1 :: evs, sch)
          else
            .ok (l1, [ev1], [])
        else
          .ok (l, [Event.chatMessage socketId player.name message false], [])

/-- The tick body of the interval set by `startTimer`: decrement `timeLeft`,
emit `timeUpdate`, and end the round at 0 or when everyone guessed. -/
def Lobby.tick (l : Lobby) : OpResult :=
  let gs := { l.gameState with timeLeft := l.gameState.timeLeft - 1 }
  let l1 : Lobby := { l with gameState := gs }
  let ev := Event.timeUpdate gs.timeLeft
  if gs.timeLeft ≤ 0 ∨ l1.allPlayersGuessed then
    match l1.endRound with
    | .error e => .error e
    | .ok (l2, evs, sch) => .ok (l2, ev :: evs, sch)
  else
    .ok (l1, [ev], [])

/-- The `setTimeout` body installed by `endRound`: `round++`,
`startNewRound()`, emit `newRound` with the client snapshot. -/
def Lobby.nextRoundFire (l : Lobby) (wordR drawerR : Nat) : OpResult :=
  let l1 : Lobby := { l with gameState := { l.gameState with round := l.gameState.round + 1 } }
  match l1.startNewRound wordR drawerR with
  | .error e => .error e
  | .ok (l2, evs, sch) => .ok (l2, evs ++ [Event.newRound l2.getGameStateForClient], sch)

/-- The `setTimeout` body installed by the auto-start of `joinLobby`:
`startGame()` then emit `gameStarted` and `newRound`. -/
def Lobby.autoStartFire (l : Lobby) (wordR drawerR : Nat) : OpResult :=
  match l.startGame wordR drawerR with
  | .error e => .error e
  | .ok (l1, evs, sch) =>
    .ok (l1, evs ++ [Event.gameStarted l1.getGameStateForClient,
                     Event.newRound l1.getGameStateForClient], sch)

/-- The join-lobby socket handler after the lobby has been resolved
by code: reject a full lobby, add the player, emit `playerJoined` to the
room and `lobbyJoined` (with the full game-state snapshot) to the joiner,
and schedule the 3000 ms auto-start whenever the roster has reached 2 and
the game is not running. -/
def Lobby.joinLobbyOp (l : Lobby) (socketId playerName : String) (now : Nat) : OpResult :=
  if l.players.length ≥ l.maxPlayers then
    .error "Lobby is full"
  else
    let player : Player :=
      { id := socketId, name := playerName, lobbyCode := l.code,
        score := 0, hasGuessed := false, joinedAt := now }
    match l.addPlayer player with
    | .error e => .error e
    | .ok l1 =>
      let evs := [Event.playerJoined player l1.players,
                  Event.lobbyJoined l1.id l1.name l1.code l1.creatorId l1.players
                    l1.maxPlayers player l1.getGameStateForClient]
      let sch :=
        if 2 ≤ l1.players.length ∧ l1.gameState.isPlaying = false then
          [(3000, ScheduledAction.autoStart)]
        else []
      .ok (l1, evs, sch)

/-- One base-36 digit, already uppercased (the JS pipeline lowercases then
`toUpperCase()`s). -/
def base36UpperDigit (n : Nat) : Char :=
  if n < 10 then Char.ofNat (48 + n) else Char.ofNat (55 + n)

/-- `generateLobbyCode()`:
`Math.random().toString(36).substr(2, LOBBY_CODE_LENGTH).toUpperCase()`.
The random draw is represented by its first `LOBBY_CODE_LENGTH` fractional
base-36 digits, packed into `r`; the code is those digits rendered
uppercase.  No lobby registry is consulted. -/
def generateLobbyCode (r : Nat) : String :=
  ⟨(List.range LOBBY_CODE_LENGTH).map (fun i =>
    base36UpperDigit (r / 36 ^ (LOBBY_CODE_LENGTH - 1 - i) % 36))⟩

/-- The create-lobby socket handler: build the lobby (its code drawn
by `generateLobbyCode`), store it by id in the `lobbies` map
(`Map.prototype.set` overwrites an existing key, otherwise appends), and
return it.  No uniqueness check is made against existing codes. -/
def createLobby (lobbies : List Lobby) (socketId lobbyName : String)
    (maxPlayers : Nat) (isPrivate : Bool) (r now : Nat) : List Lobby × Lobby :=
  let lobbyId := socketId ++ "_lobby"
  let lobby : Lobby :=
    { id := lobbyId, name := lobbyName, code := generateLobbyCode r,
      creatorId := socketId, maxPlayers := maxPlayers, isPrivate := isPrivate,
      players := [], gameState := initialGameState, createdAt := now }
  let lobbies1 :=
    if lobbies.any (fun l => l.id == lobbyId) then
      lobbies.map (fun l => if l.id == lobbyId then lobby else l)
    else
      lobbies ++ [lobby]
  (lobbies1, lobby)

/-! ## Concrete fixtures used by counterexamples and witnesses -/

/-- A first member (joined earliest, current drawer in the running fixtures). -/
def pA : Player :=
  { id := "A", name := "Alice", lobbyCode := "CODE42", score := 0,
    hasGuessed := false, joinedAt := 0 }

/-- A second member. -/
def pB : Player :=
  { id := "B", name := "Bob", lobbyCode := "CODE42", score := 0,
    hasGuessed := false, joinedAt := 1 }

/-- A two-member lobby in the middle of round 1: `pA` draws the word
`cat`, 42 seconds remain. -/
def playingLobby : Lobby :=
  { id := "A_lobby", name := "room", code := "CODE42", creatorId := "A",
    maxPlayers := 8, isPrivate := false, players := [pA, pB],
    gameState :=
      { isPlaying := true, round := 1, currentDrawer := some "A",
        lastDrawer := some "A", currentWord := some "cat",
        wordHint := some (createWordHint "cat"), timeLeft := 42,
        playersGuessed := [], timer := true },
    createdAt := 0 }

/-- The final round (6) with a single remaining member, who is the current
drawer. -/
def soloFinalLobby : Lobby :=
  { id := "A_lobby", name := "room", code := "CODE42", creatorId := "A",
    maxPlayers := 8, isPrivate := false, players := [pA],
    gameState :=
      { isPlaying := true, round := 6, currentDrawer := some "A",
        lastDrawer := some "A", currentWord := some "cat",
        wordHint := some (createWordHint "cat"), timeLeft := 42,
        playersGuessed := [], timer := true },
    createdAt := 0 }

/-- Mid round 1: `pB` has already guessed the word (score 100, in
`playersGuessed`), `pA` draws. -/
def guessedLobby : Lobby :=
  { id := "A_lobby", name := "room", code := "CODE42", creatorId := "A",
    maxPlayers := 8, isPrivate := false,
    players := [pA, { pB with hasGuessed := true, score := 100 }],
    gameState :=
      { isPlaying := true, round := 1, currentDrawer := some "A",
        lastDrawer := some "A", currentWord := some "cat",
        wordHint := some (createWordHint "cat"), timeLeft := 42,
        playersGuessed := ["B"], timer := true },
    createdAt := 0 }

/-- A lobby whose roster is empty. -/
def emptyLobby : Lobby :=
  { id := "A_lobby", name := "room", code := "CODE42", creatorId := "A",
    maxPlayers := 8, isPrivate := false, players := [],
    gameState := initialGameState, createdAt := 0 }

/-! ## Auxiliary list lemmas -/

theorem length_intersperse (sep : Char) :
    ∀ l : List Char, (l.intersperse sep).length = 2 * l.length - 1
  | [] => by simp [List.intersperse]
  | [a] => by simp
  | a :: b :: t => by
    rw [List.intersperse_cons_cons]
    have ih := length_intersperse sep (b :: t)
    simp only [List.length_cons] at ih ⊢
    omega

theorem get?_intersperse_even (sep : Char) :
    ∀ (l : List Char) (i : Nat), i < l.length →
      (l.intersperse sep).get? (2 * i) = l.get? i
  | [], i, h => by simp at h
  | [a], i, h => by
    have hi : i = 0 := by simp only [List.length_singleton] at h; omega
    subst hi
    simp
  | a :: b :: t, 0, _ => by simp [List.intersperse_cons_cons]
  | a :: b :: t, i + 1, h => by
    rw [List.intersperse_cons_cons]
    have h2 : 2 * (i + 1) = (2 * i) + 1 + 1 := by omega
    rw [h2]
    simp only [List.get?_cons_succ]
    exact get?_intersperse_even sep (b :: t) i (by simpa using Nat.lt_of_succ_lt_succ h)

theorem get?_intersperse_odd (sep : Char) :
    ∀ (l : List Char) (i : Nat), 2 * i + 1 < (l.intersperse sep).length →
      (l.intersperse sep).get? (2 * i + 1) = some sep
  | [], i, h => by simp [List.intersperse] at h
  | [a], i, h => by
    simp only [List.intersperse_singleton, List.length_singleton] at h
    omega
  | a :: b :: t, 0, _ => by simp [List.intersperse_cons_cons]
  | a :: b :: t, i + 1, h => by
    rw [List.intersperse_cons_cons] at h ⊢
    have h2 : 2 * (i + 1) + 1 = (2 * i + 1) + 1 + 1 := by omega
    rw [h2]
    simp only [List.get?_cons_succ]
    apply get?_intersperse_odd sep (b :: t) i
    simp only [List.length_cons] at h ⊢
    omega

/-! ## C1 — shape of the word hint -/

/-- **C1, counterexample.**  The claim says the generated hint has the same
length as the word; but `createWordHint` joins the masked characters with
spaces, so the hint for the 3-letter word `cat` has length 5. -/
theorem c1_counterexample :
    (createWordHint "cat").length ≠ ("cat" : String).length := by decide

/-- **C1, amended.**  For every word, the hint has length
`2 * word.length - 1` (masked characters interleaved with separator
spaces), the character at position `2*i` is the mask of the word character
at `i` (spaces preserved verbatim, everything else a mask symbol), every
odd position holds a separator space, and the word length is recoverable
from the hint length as `(hintLength + 1) / 2`. -/
theorem c1_hint_shape (w : String) :
    (createWordHint w).length = 2 * w.length - 1
    ∧ w.length = ((createWordHint w).length + 1) / 2
    ∧ (∀ i, i < w.length →
        (createWordHint w).data.get? (2 * i) = (w.data.get? i).map maskChar)
    ∧ (∀ i, 2 * i + 1 < (createWordHint w).length →
        (createWordHint w).data.get? (2 * i + 1) = some ' ') := by
  have hdata : (createWordHint w).data = (w.data.map maskChar).intersperse ' ' := rfl
  have hlen : (createWordHint w).length = 2 * w.length - 1 := by
    show (createWordHint w).data.length = 2 * w.data.length - 1
    rw [hdata, length_intersperse, List.length_map]
  refine ⟨hlen, ?_, ?_, ?_⟩
  · rw [hlen]; omega
  · intro i hi
    rw [hdata, get?_intersperse_even _ _ _ (by simpa using hi), List.get?_map]
  · intro i hi
    rw [hdata, get?_intersperse_odd]
    rw [← hdata]
    exact hi

/-- **C1, witness** at the word `ice age`: the space of the word survives
verbatim at hint position 6, and position 1 is a separator space. -/
theorem c1_hint_shape_witness :
    (createWordHint "ice age").data.get? 6 = (("ice age" : String).data.get? 3).map maskChar
    ∧ (createWordHint "ice age").data.get? 1 = some ' ' :=
  ⟨(c1_hint_shape "ice age").2.2.1 3 (by decide),
   (c1_hint_shape "ice age").2.2.2 0 (by decide)⟩

/-! ## C2 — the secret word leaks in broadcast payloads -/

/-- Does an event payload carry the given word as `currentWord`?  The
snapshot-carrying events (`lobbyJoined` to the joiner, `newRound` and
`gameStarted` to the whole room) embed `getGameStateForClient()`. -/
def eventRevealsWord (w : String) : Event → Bool
  | .lobbyJoined _ _ _ _ _ _ _ gs => gs.currentWord == some w
  | .newRound gs => gs.currentWord == some w
  | .gameStarted gs => gs.currentWord == some w
  | _ => false

/-- Does some event emitted by an operation carry the word? -/
def opRevealsWord (res : OpResult) (w : String) : Bool :=
  match res with
  | .error _ => false
  | .ok (_, evs, _) => evs.any (eventRevealsWord w)

/-- **C2 fails on the code.**  `getGameStateForClient()` includes
`currentWord`, and that snapshot is broadcast: a player joining
`playingLobby` mid-round receives the secret word `cat` in the
`lobbyJoined` payload, and the `newRound` event fanned out to every member
when the next round starts carries the freshly drawn word as well. -/
theorem c2_word_broadcast_to_everyone :
    playingLobby.getGameStateForClient.currentWord = some "cat"
    ∧ opRevealsWord (playingLobby.joinLobbyOp "C" "Carol" 5) "cat" = true
    ∧ opRevealsWord (playingLobby.nextRoundFire 0 0) (getRandomWord 0) = true := by
  decide

/-! ## C3 — the reported winner and the tie-break direction -/

/-- Two members tied at 100 points; `tiedA` joined first. -/
def tiedA : Player := { pA with score := 100 }

/-- The later-joined of the tied pair. -/
def tiedB : Player := { pB with score := 100 }

/-- **C3, counterexample.**  The claim says a tie for the top score goes to
the player occurring first in membership order; the fold
`(prev, current) => prev.score > current.score ? prev : current` keeps
`current` on a tie, so with two players tied at 100 the reported winner is
the *second* one. -/
theorem c3_counterexample :
    winnerOf [tiedA, tiedB] = some tiedB
    ∧ tiedA.score = tiedB.score
    ∧ tiedB ≠ tiedA := by decide

theorem foldl_pickWinner_spec :
    ∀ (l : List Player) (a : Player),
      ∃ l1 l2, a :: l = l1 ++ (l.foldl pickWinner a) :: l2
        ∧ (∀ p ∈ a :: l, p.score ≤ (l.foldl pickWinner a).score)
        ∧ (∀ p ∈ l2, p.score < (l.foldl pickWinner a).score)
  | [], a => ⟨[], [], rfl, by simp, by simp⟩
  | b :: t, a => by
    obtain ⟨l1, l2, hdec, hub, hstrict⟩ := foldl_pickWinner_spec t (pickWinner a b)
    rw [List.foldl_cons]
    by_cases hab : a.score > b.score
    · have hpick : pickWinner a b = a := by simp [pickWinner, hab]
      rw [hpick] at hdec hub hstrict ⊢
      cases l1 with
      | nil =>
        simp only [List.nil_append] at hdec
        injection hdec with haw htl
        refine ⟨[], b :: t, ?_, ?_, ?_⟩
        · simp [← haw]
        · intro p hp
          rcases List.mem_cons.mp hp with hpa | hp
          · subst hpa; exact hub p (by simp)
          rcases List.mem_cons.mp hp with hpb | hp
          · subst hpb
            have := hub a (by simp)
            rw [← haw]
            omega
          · exact hub p (by simp [hp])
        · intro p hp
          rcases List.mem_cons.mp hp with hpb | hp
          · subst hpb
            rw [← haw]
            omega
          · exact htl ▸ hstrict p (htl ▸ hp)
      | cons c l1' =>
        simp only [List.cons_append] at hdec
        injection hdec with hac htl
        refine ⟨a :: b :: l1', l2, ?_, ?_, ?_⟩
        · conv_lhs => rw [htl]
          simp
        · intro p hp
          rcases List.mem_cons.mp hp with hpa | hp
          · subst hpa; exact hub p (by simp)
          rcases List.mem_cons.mp hp with hpb | hp
          · subst hpb
            have := hub a (by simp)
            omega
          · exact hub p (by simp [hp])
        · exact hstrict
    · have hpick : pickWinner a b = b := by simp [pickWinner, hab]
      rw [hpick] at hdec hub hstrict ⊢
      refine ⟨a :: l1, l2, ?_, ?_, ?_⟩
      · simp only [List.cons_append, ← hdec]
      · intro p hp
        rcases List.mem_cons.mp hp with hpa | hp
        · subst hpa
          have := hub b (by simp)
          omega
        · exact hub p hp
      · exact hstrict

/-- **C3, amended.**  For every non-empty roster the reduce-left winner is
a member with maximal score, and on ties it is the *last* occurrence in
membership (join) order: the roster splits as `l1 ++ winner :: l2` with
every member scoring at most the winner and everyone *after* the winner
scoring strictly less. -/
theorem c3_winner_fold (l : List Player) (h : l ≠ []) :
    ∃ w l1 l2, winnerOf l = some w ∧ l = l1 ++ w :: l2
      ∧ (∀ p ∈ l, p.score ≤ w.score)
      ∧ (∀ p ∈ l2, p.score < w.score) := by
  match l, h with
  | p :: rest, _ =>
    obtain ⟨l1, l2, hdec, hub, hstrict⟩ := foldl_pickWinner_spec rest p
    exact ⟨_, l1, l2, rfl, hdec, hub, hstrict⟩

/-- **C3, witness** at the tied two-member roster. -/
theorem c3_winner_fold_witness :
    ∃ w l1 l2, winnerOf [tiedA, tiedB] = some w ∧ [tiedA, tiedB] = l1 ++ w :: l2
      ∧ (∀ p ∈ [tiedA, tiedB], p.score ≤ w.score)
      ∧ (∀ p ∈ l2, p.score < w.score) :=
  c3_winner_fold [tiedA, tiedB] (by decide)

/-! ## C7 — removing the drawer from an emptied final-round lobby throws -/

/-- **C7 fails on the code.**  When the sole remaining member — the current
drawer — leaves during the final round, `removePlayer` ends the round, the
round count triggers `endGame`, and `endGame` computes the winner with
`players.reduce` *without an initial value* on the now-empty roster: a
`TypeError` escapes the socket handler (no surrounding try/catch on the
leave/disconnect paths) instead of the claimed graceful cleanup. -/
theorem c7_remove_last_member_throws :
    soloFinalLobby.removePlayer "A" =
      Except.error "TypeError: Reduce of empty array with no initial value" := by
  rfl

/-! ## C9 — lobby codes are not checked for uniqueness -/

/-- Two lobbies created by different sockets whose random draws coincide:
the registry (keyed by lobby id) happily stores both. -/
def collidingRegistry : List Lobby :=
  (createLobby (createLobby [] "S1" "room1" 8 false 12345 0).1
    "S2" "room2" 8 false 12345 1).1

/-- **C9, counterexample.**  The claim requires codes to be unique among
active lobbies; `generateLobbyCode` never consults the registry and
`createLobby` never retries, so two distinct active lobbies can share a
code. -/
theorem c9_counterexample :
    collidingRegistry.map Lobby.id = ["S1_lobby", "S2_lobby"]
    ∧ collidingRegistry.map Lobby.code = ["0009IX", "0009IX"] := by decide

/-- **C9, amended.**  The code assigned at creation is a pure function of
the random draw alone: it ignores the current registry entirely, so
uniqueness is only probabilistic, never guaranteed. -/
theorem c9_code_ignores_registry (lobbies lobbies' : List Lobby)
    (socketId lobbyName : String) (maxPlayers : Nat) (isPrivate : Bool) (r now : Nat) :
    (createLobby lobbies socketId lobbyName maxPlayers isPrivate r now).2.code
        = generateLobbyCode r
    ∧ (createLobby lobbies socketId lobbyName maxPlayers isPrivate r now).2
        = (createLobby lobbies' socketId lobbyName maxPlayers isPrivate r now).2 :=
  ⟨rfl, rfl⟩

/-! ## C10 — joins auto-start the game -/

/-- **C10.**  Every successful join (the lobby has room) adds the player,
and schedules the 3-second auto-start exactly when the new roster has at
least 2 members and the game is not already running — the condition is
`≥ 2`, so it fires on *every* such join, not only the one that first
reaches two members. -/
theorem c10_autostart (l : Lobby) (socketId playerName : String) (now : Nat)
    (hroom : l.players.length < l.maxPlayers) :
    ∃ l' evs sch, l.joinLobbyOp socketId playerName now = .ok (l', evs, sch)
      ∧ l'.players.length = l.players.length + 1
      ∧ ((3000, ScheduledAction.autoStart) ∈ sch ↔
          2 ≤ l.players.length + 1 ∧ l.gameState.isPlaying = false) := by
  have h1 : ¬ (l.players.length ≥ l.maxPlayers) := by omega
  unfold Lobby.joinLobbyOp Lobby.addPlayer
  simp only [if_neg h1]
  refine ⟨_, _, _, rfl, by simp, ?_⟩
  by_cases hc : 2 ≤ l.players.length + 1 ∧ l.gameState.isPlaying = false
  · rw [if_pos (by simpa using hc)]
    simpa using hc
  · rw [if_neg (by simpa using hc)]
    simpa using hc

/-- A two-member lobby that is not yet playing. -/
def waitingLobby : Lobby := { playingLobby with gameState := initialGameState }

/-- **C10, witness**: a join that brings the roster from 2 to 3 while not
playing still schedules the auto-start. -/
theorem c10_autostart_witness :
    ∃ l' evs sch, waitingLobby.joinLobbyOp "C" "Carol" 7 = .ok (l', evs, sch)
      ∧ l'.players.length = waitingLobby.players.length + 1
      ∧ ((3000, ScheduledAction.autoStart) ∈ sch ↔
          2 ≤ waitingLobby.players.length + 1 ∧ waitingLobby.gameState.isPlaying = false) :=
  c10_autostart waitingLobby "C" "Carol" 7 (by decide)

/-! ## C6 — drawer selection -/

/-- **C6, counterexample.**  The claim quantifies over *every* membership
list, but on an empty roster `getNextDrawer` falls through to
`players[0]`, which is `undefined` (`none`): no current member is
returned. -/
theorem c6_counterexample : getNextDrawer emptyLobby 0 = none := by rfl

/-- **C6, amended.**  For every *non-empty* membership list the selection
returns a current member; whenever two members with distinct ids exist the
selected drawer differs from `lastDrawer`; and with exactly one member that
member is selected. -/
theorem c6_drawer_selection (lobby : Lobby) (r : Nat) :
    (lobby.players ≠ [] → ∃ p, getNextDrawer lobby r = some p ∧ p ∈ lobby.players)
    ∧ (∀ p q, p ∈ lobby.players → q ∈ lobby.players → p.id ≠ q.id →
        ∃ d, getNextDrawer lobby r = some d ∧ d ∈ lobby.players
          ∧ some d.id ≠ lobby.gameState.lastDrawer)
    ∧ (∀ p0, lobby.players = [p0] → getNextDrawer lobby r = some p0) := by
  by_cases hlen :
      (lobby.players.filter (fun p => some p.id != lobby.gameState.lastDrawer)).length = 0
  · have hempty : lobby.players.filter (fun p => some p.id != lobby.gameState.lastDrawer) = [] :=
      List.length_eq_zero.mp hlen
    have hval : getNextDrawer lobby r = lobby.players.head? := by
      unfold getNextDrawer
      rw [if_pos hlen]
    refine ⟨?_, ?_, ?_⟩
    · intro hne
      cases hp : lobby.players with
      | nil => exact absurd hp hne
      | cons a t =>
        exact ⟨a, by rw [hval, hp]; rfl, by simp [hp]⟩
    · intro p q hp hq hne
      exfalso
      by_cases hpd : some p.id = lobby.gameState.lastDrawer
      · have hqd : some q.id ≠ lobby.gameState.lastDrawer := by
          intro h
          exact hne (Option.some.inj (hpd.trans h.symm))
        have hqmem : q ∈ lobby.players.filter
            (fun p => some p.id != lobby.gameState.lastDrawer) :=
          List.mem_filter.mpr ⟨hq, by simpa using hqd⟩
        rw [hempty] at hqmem
        simp at hqmem
      · have hpmem : p ∈ lobby.players.filter
            (fun p => some p.id != lobby.gameState.lastDrawer) :=
          List.mem_filter.mpr ⟨hp, by simpa using hpd⟩
        rw [hempty] at hpmem
        simp at hpmem
    · intro p0 hp0
      rw [hval, hp0]
      rfl
  · have hpos : 0 < (lobby.players.filter
        (fun p => some p.id != lobby.gameState.lastDrawer)).length :=
      Nat.pos_of_ne_zero hlen
    have hlt := Nat.mod_lt r hpos
    obtain ⟨d, hd⟩ : ∃ d,
        (lobby.players.filter (fun p => some p.id != lobby.gameState.lastDrawer)).get?
          (r % (lobby.players.filter
            (fun p => some p.id != lobby.gameState.lastDrawer)).length) = some d :=
      ⟨_, List.get?_eq_get hlt⟩
    have hval : getNextDrawer lobby r = some d := by
      unfold getNextDrawer
      rw [if_neg hlen]
      exact hd
    have hdmem := List.mem_filter.mp (List.get?_mem hd)
    have hdne : some d.id ≠ lobby.gameState.lastDrawer := by simpa using hdmem.2
    refine ⟨fun _ => ⟨d, hval, hdmem.1⟩, fun p q _ _ _ => ⟨d, hval, hdmem.1, hdne⟩, ?_⟩
    intro p0 hp0
    rw [hp0] at hd
    by_cases hpred : (some p0.id != lobby.gameState.lastDrawer) = true
    · have hfil : List.filter (fun p => some p.id != lobby.gameState.lastDrawer) [p0] = [p0] := by
        simp [List.filter_cons, hpred]
      rw [hfil] at hd
      simp [Nat.mod_one] at hd
      simp [hval, hd]
    · have hfil : List.filter (fun p => some p.id != lobby.gameState.lastDrawer) [p0] = [] := by
        simp only [List.filter_cons, List.filter_nil]
        rw [if_neg hpred]
      rw [hfil] at hd
      simp at hd

/-- **C6, witness** at the two-member fixture: distinct ids force a drawer
different from `lastDrawer = some "A"`, so `pB` is picked. -/
theorem c6_drawer_selection_witness :
    ∃ d, getNextDrawer playingLobby 0 = some d ∧ d ∈ playingLobby.players
      ∧ some d.id ≠ playingLobby.gameState.lastDrawer :=
  (c6_drawer_selection playingLobby 0).2.1 pA pB (by simp [playingLobby])
    (by simp [playingLobby]) (by decide)

/-! ## C8 — contents of `playersGuessed` -/

/-- The lobby left behind after the already-guessed `pB` leaves
`guessedLobby` mid-round. -/
def lobbyAfterRemoveB : Lobby :=
  match guessedLobby.removePlayer "B" with
  | .ok (l, _, _) => l
  | .error _ => guessedLobby

/-- **C8, counterexample.**  `removePlayer` filters the roster but never
prunes `playersGuessed`: after the guessed player `B` leaves, the set still
contains `B`, which is no longer the id of any current member. -/
theorem c8_counterexample :
    guessedLobby.removePlayer "B" = Except.ok (lobbyAfterRemoveB, [], [])
    ∧ lobbyAfterRemoveB.gameState.playersGuessed.contains "B" = true
    ∧ lobbyAfterRemoveB.players.all (fun p => p.id != "B") = true :=
  ⟨rfl, rfl, rfl⟩

/-- The part of the claimed invariant the code does maintain: the current
drawer is never recorded in `playersGuessed`. -/
def drawerNotInGuessed (l : Lobby) : Bool :=
  l.gameState.playersGuessed.all (fun id => some id != l.gameState.currentDrawer)

/-- One externally triggered operation on a lobby: join, leave/kick, guess,
a clock tick, or one of the two scheduled timeouts firing. -/
inductive Step : Lobby → Lobby → Prop where
  | join (l l' : Lobby) (socketId playerName : String) (now : Nat)
      (evs : List Event) (sch : List (Nat × ScheduledAction)) :
      l.joinLobbyOp socketId playerName now = .ok (l', evs, sch) → Step l l'
  | remove (l l' : Lobby) (playerId : String)
      (evs : List Event) (sch : List (Nat × ScheduledAction)) :
      l.removePlayer playerId = .ok (l', evs, sch) → Step l l'
  | guess (l l' : Lobby) (socketId message : String)
      (evs : List Event) (sch : List (Nat × ScheduledAction)) :
      l.handleGuess socketId message = .ok (l', evs, sch) → Step l l'
  | clockTick (l l' : Lobby)
      (evs : List Event) (sch : List (Nat × ScheduledAction)) :
      l.tick = .ok (l', evs, sch) → Step l l'
  | nextRoundTimeout (l l' : Lobby) (wordR drawerR : Nat)
      (evs : List Event) (sch : List (Nat × ScheduledAction)) :
      l.nextRoundFire wordR drawerR = .ok (l', evs, sch) → Step l l'
  | autoStartTimeout (l l' : Lobby) (wordR drawerR : Nat)
      (evs : List Event) (sch : List (Nat × ScheduledAction)) :
      l.autoStartFire wordR drawerR = .ok (l', evs, sch) → Step l l'

theorem endGame_playersGuessed (l l' : Lobby) (evs : List Event)
    (sch : List (Nat × ScheduledAction))
    (h : l.endGame = .ok (l', evs, sch)) :
    l'.gameState.playersGuessed = [] := by
  unfold Lobby.endGame at h
  dsimp only [] at h
  split at h
  · exact Except.noConfusion h
  · simp only [Except.ok.injEq, Prod.mk.injEq] at h
    obtain ⟨h1, -, -⟩ := h
    subst h1
    rfl

theorem startNewRound_playersGuessed (l l' : Lobby) (wordR drawerR : Nat)
    (evs : List Event) (sch : List (Nat × ScheduledAction))
    (h : l.startNewRound wordR drawerR = .ok (l', evs, sch)) :
    l'.gameState.playersGuessed = [] := by
  unfold Lobby.startNewRound at h
  dsimp only [] at h
  split at h
  · exact Except.noConfusion h
  · simp only [Except.ok.injEq, Prod.mk.injEq] at h
    obtain ⟨h1, -, -⟩ := h
    subst h1
    rfl

theorem startGame_playersGuessed (l l' : Lobby) (wordR drawerR : Nat)
    (evs : List Event) (sch : List (Nat × ScheduledAction))
    (h : l.startGame wordR drawerR = .ok (l', evs, sch)) :
    l'.gameState.playersGuessed = [] := by
  unfold Lobby.startGame at h
  dsimp only [] at h
  split at h
  · exact Except.noConfusion h
  · exact startNewRound_playersGuessed _ _ _ _ _ _ h

theorem endRound_inv (l l' : Lobby) (evs : List Event)
    (sch : List (Nat × ScheduledAction))
    (h : l.endRound = .ok (l', evs, sch))
    (hinv : drawerNotInGuessed l = true) : drawerNotInGuessed l' = true := by
  unfold Lobby.endRound at h
  dsimp only [] at h
  split at h
  · split at h
    · exact Except.noConfusion h
    · rename_i l2 evs2 sch2 heq
      simp only [Except.ok.injEq, Prod.mk.injEq] at h
      obtain ⟨h1, -, -⟩ := h
      subst h1
      simp [drawerNotInGuessed, endGame_playersGuessed _ _ _ _ heq]
  · simp only [Except.ok.injEq, Prod.mk.injEq] at h
    obtain ⟨h1, -, -⟩ := h
    subst h1
    simpa [drawerNotInGuessed] using hinv

theorem handleGuess_inv (l l' : Lobby) (socketId message : String)
    (evs : List Event) (sch : List (Nat × ScheduledAction))
    (h : l.handleGuess socketId message = .ok (l', evs, sch))
    (hinv : drawerNotInGuessed l = true) : drawerNotInGuessed l' = true := by
  unfold Lobby.handleGuess at h
  dsimp only [] at h
  split at h
  · simp only [Except.ok.injEq, Prod.mk.injEq] at h
    obtain ⟨h1, -, -⟩ := h
    subst h1
    exact hinv
  · rename_i player hfind
    split at h
    · simp only [Except.ok.injEq, Prod.mk.injEq] at h
      obtain ⟨h1, -, -⟩ := h
      subst h1
      exact hinv
    · split at h
      · simp only [Except.ok.injEq, Prod.mk.injEq] at h
        obtain ⟨h1, -, -⟩ := h
        subst h1
        exact hinv
      · rename_i hnotplay hnotdrawer
        split at h
        · exact Except.noConfusion h
        · rename_i w hword
          split at h
          · -- correct guess: the playersGuessed-insert ite splits first,
            -- then the all-guessed if, then the endRound match
            have hne : (some socketId == l.gameState.currentDrawer) = false := by
              have h2 : (some socketId == l.gameState.currentDrawer || player.hasGuessed) = false :=
                (Bool.not_eq_true _) ▸ hnotdrawer
              simp only [Bool.or_eq_false_iff] at h2
              exact h2.1
            split at h
            · -- socketId already recorded
              split at h
              · split at h
                · exact Except.noConfusion h
                · rename_i l3 evs3 sch3 heq
                  simp only [Except.ok.injEq, Prod.mk.injEq] at h
                  obtain ⟨h1, -, -⟩ := h
                  subst h1
                  refine endRound_inv _ _ _ _ heq ?_
                  simpa [drawerNotInGuessed] using hinv
              · simp only [Except.ok.injEq, Prod.mk.injEq] at h
                obtain ⟨h1, -, -⟩ := h
                subst h1
                simpa [drawerNotInGuessed] using hinv
            · -- socketId newly prepended to playersGuessed
              split at h
              · split at h
                · exact Except.noConfusion h
                · rename_i l3 evs3 sch3 heq
                  simp only [Except.ok.injEq, Prod.mk.injEq] at h
                  obtain ⟨h1, -, -⟩ := h
                  subst h1
                  refine endRound_inv _ _ _ _ heq ?_
                  simp only [drawerNotInGuessed] at hinv ⊢
                  simp only [List.all_cons, Bool.and_eq_true]
                  exact ⟨by simpa using hne, hinv⟩
              · simp only [Except.ok.injEq, Prod.mk.injEq] at h
                obtain ⟨h1, -, -⟩ := h
                subst h1
                simp only [drawerNotInGuessed] at hinv ⊢
                simp only [List.all_cons, Bool.and_eq_true]
                exact ⟨by simpa using hne, hinv⟩
          · simp only [Except.ok.injEq, Prod.mk.injEq] at h
            obtain ⟨h1, -, -⟩ := h
            subst h1
            exact hinv

theorem removePlayer_inv (l l' : Lobby) (playerId : String)
    (evs : List Event) (sch : List (Nat × ScheduledAction))
    (h : l.removePlayer playerId = .ok (l', evs, sch))
    (hinv : drawerNotInGuessed l = true) : drawerNotInGuessed l' = true := by
  unfold Lobby.removePlayer at h
  dsimp only [] at h
  split at h
  · refine endRound_inv _ _ _ _ h ?_
    simpa [drawerNotInGuessed] using hinv
  · simp only [Except.ok.injEq, Prod.mk.injEq] at h
    obtain ⟨h1, -, -⟩ := h
    subst h1
    simpa [drawerNotInGuessed] using hinv

theorem tick_inv (l l' : Lobby)
    (evs : List Event) (sch : List (Nat × ScheduledAction))
    (h : l.tick = .ok (l', evs, sch))
    (hinv : drawerNotInGuessed l = true) : drawerNotInGuessed l' = true := by
  unfold Lobby.tick at h
  dsimp only [] at h
  split at h
  · split at h
    · exact Except.noConfusion h
    · rename_i l2 evs2 sch2 heq
      simp only [Except.ok.injEq, Prod.mk.injEq] at h
      obtain ⟨h1, -, -⟩ := h
      subst h1
      refine endRound_inv _ _ _ _ heq ?_
      simpa [drawerNotInGuessed] using hinv
  · simp only [Except.ok.injEq, Prod.mk.injEq] at h
    obtain ⟨h1, -, -⟩ := h
    subst h1
    simpa [drawerNotInGuessed] using hinv

/-- **C8, amended.**  `playersGuessed` may retain ids of members who have
since left (see the counterexample), but it never contains the current
drawer: the property is preserved by every operation of the core. -/
theorem c8_drawer_never_guessed (l l' : Lobby) (hstep : Step l l')
    (hinv : drawerNotInGuessed l = true) : drawerNotInGuessed l' = true := by
  cases hstep with
  | join socketId playerName now evs sch h =>
    unfold Lobby.joinLobbyOp at h
    dsimp only [] at h
    split at h
    · exact Except.noConfusion h
    · split at h
      · exact Except.noConfusion h
      · rename_i l1 heq
        simp only [Except.ok.injEq, Prod.mk.injEq] at h
        obtain ⟨h1, -, -⟩ := h
        subst h1
        unfold Lobby.addPlayer at heq
        split at heq
        · exact Except.noConfusion heq
        · simp only [Except.ok.injEq] at heq
          subst heq
          simpa [drawerNotInGuessed] using hinv
  | remove playerId evs sch h => exact removePlayer_inv _ _ _ _ _ h hinv
  | guess socketId message evs sch h => exact handleGuess_inv _ _ _ _ _ _ h hinv
  | clockTick evs sch h => exact tick_inv _ _ _ _ h hinv
  | nextRoundTimeout wordR drawerR evs sch h =>
    unfold Lobby.nextRoundFire at h
    dsimp only [] at h
    split at h
    · exact Except.noConfusion h
    · rename_i l2 evs2 sch2 heq
      simp only [Except.ok.injEq, Prod.mk.injEq] at h
      obtain ⟨h1, -, -⟩ := h
      subst h1
      simp [drawerNotInGuessed, startNewRound_playersGuessed _ _ _ _ _ _ heq]
  | autoStartTimeout wordR drawerR evs sch h =>
    unfold Lobby.autoStartFire at h
    split at h
    · exact Except.noConfusion h
    · rename_i l2 evs2 sch2 heq
      simp only [Except.ok.injEq, Prod.mk.injEq] at h
      obtain ⟨h1, -, -⟩ := h
      subst h1
      simp [drawerNotInGuessed, startGame_playersGuessed _ _ _ _ _ _ heq]

/-- **C8, witness**: the concrete removal step of the counterexample
preserves the drawer-not-guessed property. -/
theorem c8_drawer_never_guessed_witness :
    drawerNotInGuessed lobbyAfterRemoveB = true :=
  c8_drawer_never_guessed guessedLobby lobbyAfterRemoveB
    (Step.remove guessedLobby lobbyAfterRemoveB "B" [] [] rfl) rfl

/-! ## C4 and C5 — guess scoring and the drawer bonus -/

theorem bumpFirst_mem_of_ne (target : Option String) (bonus : Nat) :
    ∀ (players : List Player) (q : Player), q ∈ players → some q.id ≠ target →
      q ∈ bumpFirst players target bonus := by
  intro players
  induction players with
  | nil => intro q hq _; simp at hq
  | cons p rest ih =>
    intro q hq hne
    unfold bumpFirst
    split
    · rename_i hbeq
      rcases List.mem_cons.mp hq with rfl | hq'
      · exact absurd (by simpa using hbeq) hne
      · exact List.mem_cons_of_mem _ hq'
    · rcases List.mem_cons.mp hq with rfl | hq'
      · exact List.mem_cons_self _ _
      · exact List.mem_cons_of_mem _ (ih q hq' hne)

theorem bumpFirst_mem_bumped (did : String) (bonus : Nat) :
    ∀ (players : List Player) (drawer : Player),
      (players.map Player.id).Nodup → drawer ∈ players → drawer.id = did →
      { drawer with score := drawer.score + bonus } ∈ bumpFirst players (some did) bonus := by
  intro players
  induction players with
  | nil => intro drawer _ h _; simp at h
  | cons p rest ih =>
    intro drawer hnodup hmem hdid
    unfold bumpFirst
    split
    · rename_i hbeq
      have hp : p.id = did := by simpa using hbeq
      rcases List.mem_cons.mp hmem with rfl | hmem'
      · exact List.mem_cons_self _ _
      · exfalso
        simp only [List.map_cons, List.nodup_cons] at hnodup
        exact hnodup.1 (by rw [hp, ← hdid]; exact List.mem_map_of_mem _ hmem')
    · rename_i hbeq
      have hp : ¬ p.id = did := by simpa using hbeq
      rcases List.mem_cons.mp hmem with rfl | hmem'
      · exact absurd hdid hp
      · simp only [List.map_cons, List.nodup_cons] at hnodup
        exact List.mem_cons_of_mem _ (ih drawer hnodup.2 hmem' hdid)

theorem map_ids_of_preserve (f : Player → Player) (hf : ∀ p, (f p).id = p.id) :
    ∀ l : List Player, (l.map f).map Player.id = l.map Player.id := by
  intro l
  induction l with
  | nil => rfl
  | cons p rest ih => simp only [List.map_cons, hf, ih]

theorem endRound_ok_elim (l2 l3 : Lobby) (evs3 : List Event)
    (sch3 : List (Nat × ScheduledAction))
    (heq : l2.endRound = .ok (l3, evs3, sch3))
    (hr : l2.gameState.round < ROUNDS_PER_GAME) :
    l3 = { l2 with gameState := { l2.gameState with timer := false } }
    ∧ sch3 = [(6000, ScheduledAction.nextRound)] := by
  unfold Lobby.endRound at heq
  dsimp only [] at heq
  rw [if_neg (show ¬(l2.gameState.round ≥ ROUNDS_PER_GAME) by omega)] at heq
  simp only [Except.ok.injEq, Prod.mk.injEq] at heq
  exact ⟨heq.1.symm, heq.2.2.symm⟩

theorem endRound_error_round (l2 : Lobby) (e : String)
    (heq : l2.endRound = .error e) :
    ROUNDS_PER_GAME ≤ l2.gameState.round := by
  unfold Lobby.endRound at heq
  dsimp only [] at heq
  by_cases hge : l2.gameState.round ≥ ROUNDS_PER_GAME
  · exact hge
  · rw [if_neg hge] at heq
    exact Except.noConfusion heq

/-- Every word the bank can draw carries no surrounding whitespace, so the
trim-cleanliness hypothesis of the scoring theorems holds for every word a
round can use. -/
theorem allWords_trimmed : ∀ w ∈ allWords, jsTrim w = w := by decide

/-- **C4.**  In a running round, an eligible guesser (not the drawer, has
not yet guessed) whose message equals the current word up to case and
surrounding whitespace is awarded exactly `POINTS_CORRECT_GUESS` and marked
as having guessed; and a guess by the drawer, by a player who already
guessed, or while the lobby is not playing, is a silent no-op that changes
no state and emits nothing.  (The word-bank hypothesis `w.trim = w` holds
for every drawable word; the round bound keeps the game-end score reset of
the final round out of scope.) -/
theorem c4_guess_scoring (l : Lobby) (pid message : String) (player : Player)
    (hfind : l.players.find? (fun p => p.id == pid) = some player) :
    (∀ w, l.gameState.isPlaying = true →
      l.gameState.currentWord = some w →
      some pid ≠ l.gameState.currentDrawer →
      player.hasGuessed = false →
      jsTrim (jsToLowerCase message) = jsToLowerCase (jsTrim w) →
      jsTrim w = w →
      l.gameState.round < ROUNDS_PER_GAME →
      ∃ l' evs sch,
        l.handleGuess pid message = .ok (l', evs, sch)
        ∧ { player with hasGuessed := true, score := player.score + POINTS_CORRECT_GUESS }
            ∈ l'.players
        ∧ pid ∈ l'.gameState.playersGuessed)
    ∧ ((l.gameState.isPlaying = false ∨ some pid = l.gameState.currentDrawer
        ∨ player.hasGuessed = true) →
        l.handleGuess pid message = .ok (l, [], [])) := by
  constructor
  · intro w hplay hword hdne hg hmatch hwtrim hr
    have hbeq : (jsTrim (jsToLowerCase message) == jsToLowerCase w) = true := by
      rw [hwtrim] at hmatch
      simp [hmatch]
    have hbd : (some pid == l.gameState.currentDrawer) = false := by
      simpa using hdne
    have hppid : (player.id == pid) = true := by
      have h0 := List.find?_some hfind
      simpa using h0
    have hpmem : player ∈ l.players := List.mem_of_find?_eq_some hfind
    unfold Lobby.handleGuess
    rw [hfind]
    dsimp only []
    rw [hplay]
    simp only [Bool.not_true, Bool.false_eq_true, if_false]
    rw [hbd, hg]
    simp only [Bool.or_self, Bool.false_eq_true, if_false]
    rw [hword]
    dsimp only []
    rw [hbeq]
    simp only [if_true]
    have hpid : player.id = pid := by simpa using hppid
    split
    · -- pid was already in playersGuessed
      rename_i hcont
      split
      · -- everyone has guessed: the drawer bonus and endRound run
        split
        · rename_i e heq
          exact absurd (by simpa using endRound_error_round _ _ heq) (by omega)
        · rename_i l3 evs3 sch3 heq
          obtain ⟨hl3, -⟩ := endRound_ok_elim _ _ _ _ heq (by simpa using hr)
          subst hl3
          refine ⟨_, _, _, rfl, ?_, ?_⟩
          · dsimp only []
            apply bumpFirst_mem_of_ne
            · rw [List.mem_map]
              exact ⟨player, hpmem, by rw [if_pos hppid]⟩
            · simpa [hpid] using hdne
          · dsimp only []
            simpa using hcont
      · refine ⟨_, _, _, rfl, ?_, ?_⟩
        · dsimp only []
          rw [List.mem_map]
          exact ⟨player, hpmem, by rw [if_pos hppid]⟩
        · dsimp only []
          simpa using hcont
    · -- pid is newly added to playersGuessed
      split
      · split
        · rename_i e heq
          exact absurd (by simpa using endRound_error_round _ _ heq) (by omega)
        · rename_i l3 evs3 sch3 heq
          obtain ⟨hl3, -⟩ := endRound_ok_elim _ _ _ _ heq (by simpa using hr)
          subst hl3
          refine ⟨_, _, _, rfl, ?_, ?_⟩
          · dsimp only []
            apply bumpFirst_mem_of_ne
            · rw [List.mem_map]
              exact ⟨player, hpmem, by rw [if_pos hppid]⟩
            · simpa [hpid] using hdne
          · dsimp only []
            exact List.mem_cons_self _ _
      · refine ⟨_, _, _, rfl, ?_, ?_⟩
        · dsimp only []
          rw [List.mem_map]
          exact ⟨player, hpmem, by rw [if_pos hppid]⟩
        · dsimp only []
          exact List.mem_cons_self _ _
  · intro hcase
    unfold Lobby.handleGuess
    rw [hfind]
    dsimp only []
    rcases hcase with hP | hD | hG
    · simp [hP]
    · cases hPl : l.gameState.isPlaying
      · simp [hPl]
      · simp [hPl, hD]
    · cases hPl : l.gameState.isPlaying
      · simp [hPl]
      · simp [hPl, hG]

/-- **C4, witness**: in `playingLobby` (drawer `A`, word `cat`), the guess
`"  CAT "` by `B` scores exactly 100 and marks `B`; a guess by the drawer
`A` is a silent no-op. -/
theorem c4_guess_scoring_witness :
    (∃ l' evs sch,
        playingLobby.handleGuess "B" "  CAT " = .ok (l', evs, sch)
        ∧ { pB with hasGuessed := true, score := pB.score + POINTS_CORRECT_GUESS }
            ∈ l'.players
        ∧ "B" ∈ l'.gameState.playersGuessed)
    ∧ playingLobby.handleGuess "A" "cat" = .ok (playingLobby, [], []) :=
  ⟨(c4_guess_scoring playingLobby "B" "  CAT " pB (by decide)).1 "cat" rfl rfl
      (by decide) rfl (by decide) (by decide) (by decide),
   (c4_guess_scoring playingLobby "A" "cat" pA (by decide)).2 (Or.inr (Or.inl rfl))⟩

theorem allGuessed_after_mark (l : Lobby) (pid did : String) (gs : GameState)
    (hdid : gs.currentDrawer = some did)
    (hall : ∀ q ∈ l.players, q.id ≠ did → q.id ≠ pid → q.hasGuessed = true) :
    Lobby.allPlayersGuessed
      { l with
        players := l.players.map (fun p =>
          if (p.id == pid) = true then
            { p with hasGuessed := true, score := p.score + POINTS_CORRECT_GUESS }
          else p)
        gameState := gs } = true := by
  unfold Lobby.allPlayersGuessed
  dsimp only []
  rw [List.all_eq_true]
  intro p hp
  rw [List.mem_filter] at hp
  obtain ⟨hp1, hp2⟩ := hp
  rw [List.mem_map] at hp1
  obtain ⟨p0, hp0, rfl⟩ := hp1
  by_cases hc : (p0.id == pid) = true
  · rw [if_pos hc]
  · rw [if_neg hc]
    rw [if_neg hc] at hp2
    rw [hdid] at hp2
    exact hall p0 hp0 (by simpa using hp2) (by simpa using hc)

/-- **C5.**  When the guess of the last eligible player solves the word
(every other non-drawer member has already guessed), the drawer — a current
member, `did` — gains exactly `POINTS_DRAWING_BONUS`, the round timer is
stopped at that moment with `timeLeft` untouched (hence still positive:
the round ends before the countdown reaches 0), and the next round is
scheduled. -/
theorem c5_drawer_bonus (l : Lobby) (pid message w did : String) (player drawer : Player)
    (hfind : l.players.find? (fun p => p.id == pid) = some player)
    (hplay : l.gameState.isPlaying = true)
    (hword : l.gameState.currentWord = some w)
    (hdid : l.gameState.currentDrawer = some did)
    (hne : pid ≠ did)
    (hg : player.hasGuessed = false)
    (hmatch : jsTrim (jsToLowerCase message) = jsToLowerCase (jsTrim w))
    (hwtrim : jsTrim w = w)
    (hr : l.gameState.round < ROUNDS_PER_GAME)
    (htime : 0 < l.gameState.timeLeft)
    (hdmem : drawer ∈ l.players)
    (hdid2 : drawer.id = did)
    (hnodup : (l.players.map Player.id).Nodup)
    (hall : ∀ q ∈ l.players, q.id ≠ did → q.id ≠ pid → q.hasGuessed = true) :
    ∃ l' evs sch,
      l.handleGuess pid message = .ok (l', evs, sch)
      ∧ { drawer with score := drawer.score + POINTS_DRAWING_BONUS } ∈ l'.players
      ∧ l'.gameState.timer = false
      ∧ l'.gameState.timeLeft = l.gameState.timeLeft
      ∧ 0 < l'.gameState.timeLeft
      ∧ (6000, ScheduledAction.nextRound) ∈ sch := by
  have hdne : some pid ≠ l.gameState.currentDrawer := by
    rw [hdid]
    simpa using hne
  have hbeq : (jsTrim (jsToLowerCase message) == jsToLowerCase w) = true := by
    rw [hwtrim] at hmatch
    simp [hmatch]
  have hbd : (some pid == l.gameState.currentDrawer) = false := by
    simpa using hdne
  have hdb : (drawer.id == pid) = false := by
    rw [hdid2]
    simp only [beq_eq_false_iff_ne, ne_eq]
    exact fun h => hne h.symm
  have hfdrawer : ∀ p : Player,
      ((fun p => if (p.id == pid) = true then
        { p with hasGuessed := true, score := p.score + POINTS_CORRECT_GUESS }
        else p) p).id = p.id := by
    intro p
    by_cases hc : (p.id == pid) = true <;> simp [hc]
  unfold Lobby.handleGuess
  rw [hfind]
  dsimp only []
  rw [hplay]
  simp only [Bool.not_true, Bool.false_eq_true, if_false]
  rw [hbd, hg]
  simp only [Bool.or_self, Bool.false_eq_true, if_false]
  rw [hword]
  dsimp only []
  rw [hbeq]
  simp only [if_true]
  split
  · -- pid was already in playersGuessed
    split
    · -- all guessed (forced): bonus and endRound
      split
      · rename_i e heq
        exact absurd (by simpa using endRound_error_round _ _ heq) (by omega)
      · rename_i l3 evs3 sch3 heq
        obtain ⟨hl3, hsch3⟩ := endRound_ok_elim _ _ _ _ heq (by simpa using hr)
        subst hl3
        subst hsch3
        refine ⟨_, _, _, rfl, ?_, rfl, rfl, htime, by simp⟩
        dsimp only []
        rw [hdid]
        apply bumpFirst_mem_bumped
        · rw [map_ids_of_preserve _ hfdrawer]
          exact hnodup
        · rw [List.mem_map]
          exact ⟨drawer, hdmem, by simp [hdb]⟩
        · exact hdid2
    · rename_i hng
      exact absurd (allGuessed_after_mark l pid did _ hdid hall) hng
  · -- pid is newly added to playersGuessed
    split
    · split
      · rename_i e heq
        exact absurd (by simpa using endRound_error_round _ _ heq) (by omega)
      · rename_i l3 evs3 sch3 heq
        obtain ⟨hl3, hsch3⟩ := endRound_ok_elim _ _ _ _ heq (by simpa using hr)
        subst hl3
        subst hsch3
        refine ⟨_, _, _, rfl, ?_, rfl, rfl, htime, by simp⟩
        dsimp only []
        rw [hdid]
        apply bumpFirst_mem_bumped
        · rw [map_ids_of_preserve _ hfdrawer]
          exact hnodup
        · rw [List.mem_map]
          exact ⟨drawer, hdmem, by simp [hdb]⟩
        · exact hdid2
    · rename_i hng
      exact absurd (allGuessed_after_mark l pid did _ hdid hall) hng

/-- **C5, witness**: in `playingLobby`, `B` (the only eligible guesser)
guesses `cAt`; the drawer `A` gains exactly 50, the timer stops with 42
seconds still on the clock, and the next round is scheduled. -/
theorem c5_drawer_bonus_witness :
    ∃ l' evs sch,
      playingLobby.handleGuess "B" "cAt" = .ok (l', evs, sch)
      ∧ { pA with score := pA.score + POINTS_DRAWING_BONUS } ∈ l'.players
      ∧ l'.gameState.timer = false
      ∧ l'.gameState.timeLeft = playingLobby.gameState.timeLeft
      ∧ 0 < l'.gameState.timeLeft
      ∧ (6000, ScheduledAction.nextRound) ∈ sch :=
  c5_drawer_bonus playingLobby "B" "cAt" "cat" "A" pB pA (by decide) rfl rfl rfl
    (by decide) rfl (by decide) (by decide) (by decide) (by decide) (by decide) rfl
    (by decide) (by decide)

end Skribbl
